import Mathlib

/-
Verification of the Sales-Performance-Analytics repository.

The development shallowly embeds the data-shaping logic of the two scripts
`scripts/data_extraction.py` and `scripts/create_visualizations.py`:
age and customer-value classification, the category revenue aggregation,
cart derived fields, the extraction control flow and the chart loop.
Numeric columns are modelled as rationals; pandas missing values (NaN)
are modelled with Option; the one place where IEEE division by zero
matters is modelled by an explicit value domain with nan and infinities.
-/

namespace SalesAnalytics

/-! ## Labels used by the classification rules (string constants of the scripts) -/

def genZLabel : String := "Gen Z (Under 25)"

def millennialsLabel : String := "Millennials (25-35)"

def genXLabel : String := "Gen X (36-50)"

def boomersLabel : String := "Boomers (50+)"

def unknownLabel : String := "Unknown"

def genZCutLabel : String := "Gen Z (<25)"

def genXCutLabel : String := "Gen X (35-50)"

def premiumLabel : String := "Premium Customer"

def valuableLabel : String := "Valuable Customer"

def regularLabel : String := "Regular Customer"

def lowValueLabel : String := "Low-Value Customer"

/-! ## Age segmentation

`SalesDataExtractor.categorize_age` (data_extraction.py lines 211-222):
missing age (pd.isna) is mapped to Unknown, then the cascade
age < 25 / 25 <= age <= 35 / 36 <= age <= 50 / else. -/

def categorize_age : Option Int → String
  | none => unknownLabel
  | some age =>
    if age < 25 then genZLabel
    else if 25 ≤ age ∧ age ≤ 35 then millennialsLabel
    else if 36 ≤ age ∧ age ≤ 50 then genXLabel
    else boomersLabel

/-- The local `categorize_age` of `create_customer_segmentation_chart`
(create_visualizations.py lines 170-178).  It has no missing-value branch:
for a NaN age every comparison is false, so control falls through every
`elif` to the final else branch, yielding the Boomers label. -/
def categorize_age_viz : Option Int → String
  | none => boomersLabel
  | some age =>
    if age < 25 then genZLabel
    else if 25 ≤ age ∧ age ≤ 35 then millennialsLabel
    else if 36 ≤ age ∧ age ≤ 50 then genXLabel
    else boomersLabel

/-- The age binner of `create_executive_summary_dashboard`
(create_visualizations.py lines 427-430) and of
`create_portfolio_showcase_image` (lines 545-548):
`pd.cut(age, bins=[0, 25, 35, 50, 100], labels=[...])` with the default
`right=True`, i.e. the right-closed intervals (0,25], (25,35], (35,50],
(50,100]; an age outside (0,100] gets no bucket (NaN). -/
def pd_cut_age_segment (age : Int) : Option String :=
  if 0 < age ∧ age ≤ 25 then some genZCutLabel
  else if 25 < age ∧ age ≤ 35 then some millennialsLabel
  else if 35 < age ∧ age ≤ 50 then some genXCutLabel
  else if 50 < age ∧ age ≤ 100 then some boomersLabel
  else none

/-- Mean age as pandas computes it (`users_df['age'].mean()`,
create_visualizations.py line 377): NaN entries are skipped; the mean of
an all-NaN column is NaN. -/
def avg_age (ages : List (Option ℚ)) : Option ℚ :=
  let vals := ages.filterMap id
  if vals.length = 0 then none else some (vals.sum / (vals.length : ℚ))

/-! ## Customer value segmentation

`customer_value_segment` (create_visualizations.py lines 280-288). -/

def customer_value_segment (total_spent : ℚ) (order_count : ℕ) : String :=
  if 1500 ≤ total_spent ∧ 3 ≤ order_count then premiumLabel
  else if 800 ≤ total_spent ∧ 2 ≤ order_count then valuableLabel
  else if 400 ≤ total_spent ∨ 2 ≤ order_count then regularLabel
  else lowValueLabel

/-- One row of the carts table (data_extraction.py lines 160-167). -/
structure CartRow where
  id : Int
  userId : Int
  total : ℚ
  discountedTotal : ℚ
  totalQuantity : Int
deriving DecidableEq

/-- `carts_df.groupby('userId')['total'].sum()` restricted to one user:
the summed cart totals of that user (create_visualizations.py lines 273-277). -/
def userTotalSpent (carts : List CartRow) (uid : Int) : ℚ :=
  ((carts.filter (fun c => decide (c.userId = uid))).map (fun c => c.total)).sum

/-- `carts_df.groupby('userId')['total'].count()` restricted to one user
(create_visualizations.py lines 273-277). -/
def userOrderCount (carts : List CartRow) (uid : Int) : ℕ :=
  (carts.filter (fun c => decide (c.userId = uid))).length

/-- Two carts of 900 for user 7, the concrete scenario of the claim. -/
def twoNineHundredCarts : List CartRow :=
  [⟨1, 7, 900, 850, 2⟩, ⟨2, 7, 900, 850, 2⟩]

/-! ## Category revenue aggregation

`create_revenue_by_category_chart` (create_visualizations.py lines 81-93):
`products_df.groupby('category')` partitions the product rows by category
(group keys sorted ascending, the pandas default), the applied lambda
computes `(x['price'] * x['stock']).sum()` inside each partition, and
line 93 sorts the resulting frame with
`sort_values('revenue_potential', ascending=False)`. -/

structure ProductRow where
  category : String
  price : ℚ
  stock : ℚ
  rating : ℚ
deriving DecidableEq

def strLe (a b : String) : Bool := decide (a ≤ b)

def insertSorted {α : Type _} (le : α → α → Bool) (x : α) : List α → List α
  | [] => [x]
  | y :: ys => if le x y then x :: y :: ys else y :: insertSorted le x ys

def insertionSort {α : Type _} (le : α → α → Bool) : List α → List α
  | [] => []
  | x :: xs => insertSorted le x (insertionSort le xs)

/-- The distinct categories, ascending — the group keys of
`products_df.groupby('category')`. -/
def categoriesOf (rows : List ProductRow) : List String :=
  insertionSort strLe ((rows.map (fun r => r.category)).dedup)

/-- The applied lambda of one partition: the sum of per-row price times
stock over the rows of category `c`. -/
def catRevenue (rows : List ProductRow) (c : String) : ℚ :=
  ((rows.filter (fun r => decide (r.category = c))).map
    (fun r => r.price * r.stock)).sum

/-- The grouped frame: one (category, revenue_potential) row per group key. -/
def revenueSummary (rows : List ProductRow) : List (String × ℚ) :=
  (categoriesOf rows).map (fun c => (c, catRevenue rows c))

/-- Ascending comparison on the revenue_potential column. -/
def leRev (a b : String × ℚ) : Bool := decide (a.2 ≤ b.2)

/-- `sort_values('revenue_potential', ascending=False)` (line 93): pandas
computes the ascending order of the column (a stable order for the small
frames at hand) and, because `ascending=False`, reverses that order. -/
def revenueSummarySorted (rows : List ProductRow) : List (String × ℚ) :=
  (insertionSort leRev (revenueSummary rows)).reverse

/-- First-match lookup of a key in an association list, as a lookup of a
category row in the summary frame. -/
def lookupQ : List (String × ℚ) → String → Option ℚ
  | [], _ => none
  | (k, v) :: rest, c => if k = c then some v else lookupQ rest c

/-- The concrete three-product scenario of the claim. -/
def threeProducts : List ProductRow :=
  [⟨"A", 10, 5, 4⟩, ⟨"A", 20, 1, 3⟩, ⟨"B", 5, 10, 5⟩]

/-- Two categories with equal revenue potential 70. -/
def tieRows : List ProductRow :=
  [⟨"a", 7, 10, 4⟩, ⟨"b", 35, 2, 4⟩]

/-! ## The one float division that can hit zero

`savings_percentage` (data_extraction.py lines 170-171) divides by the raw
cart total with no guard.  Pandas float semantics make 0/0 a NaN and
x/0 for nonzero x a signed infinity, so the value domain of the column is
modelled explicitly.  `.round(2)` is numpy rounding: scale by 100 and round
half to even. -/

inductive PFloat where
  | finite (q : ℚ)
  | nan
  | inf
  | neginf
deriving DecidableEq

/-- Round to the nearest integer, ties to even (numpy rounding). -/
def roundHalfEven (x : ℚ) : ℤ :=
  if x - ⌊x⌋ < 1/2 then ⌊x⌋
  else if 1/2 < x - ⌊x⌋ then ⌊x⌋ + 1
  else if ⌊x⌋ % 2 = 0 then ⌊x⌋ else ⌊x⌋ + 1

/-- numpy `round(x, 2)`. -/
def round2 (x : ℚ) : ℚ := (roundHalfEven (x * 100) : ℚ) / 100

/-- numpy `round(x, 1)`. -/
def round1 (x : ℚ) : ℚ := (roundHalfEven (x * 10) : ℚ) / 10

/-! ## Age segmentation summary of the customer chart

`create_customer_segmentation_chart` (create_visualizations.py lines
180-194): the age_segment column is produced by the local `categorize_age`,
`groupby('age_segment')` groups the users by that label (group keys sorted
ascending), customer_count is the group size, and the percentage column is
`(customer_count / customer_count.sum() * 100).round(1)`. -/

def segKeys (ages : List (Option Int)) : List String :=
  insertionSort strLe ((ages.map categorize_age_viz).dedup)

def segCount (ages : List (Option Int)) (s : String) : ℕ :=
  (ages.map categorize_age_viz).count s

/-- `segment_summary['customer_count'].sum()`: the percentages divide by the
sum of the group sizes. -/
def segTotal (ages : List (Option Int)) : ℚ :=
  ((segKeys ages).map (fun s => (segCount ages s : ℚ))).sum

def segPercentage (ages : List (Option Int)) (s : String) : ℚ :=
  round1 ((segCount ages s : ℚ) / segTotal ages * 100)

def percentageSum (ages : List (Option Int)) : ℚ :=
  ((segKeys ages).map (segPercentage ages)).sum

/-- Sixteen users whose segment counts are 1, 1, 1 and 13: every group
percentage is an exact quarter-percent that rounds down. -/
def sixteenAges : List (Option Int) :=
  [some 20, some 30, some 40] ++ List.replicate 13 (some 60)

/-- `(carts_clean['total_savings'] / carts_clean['total'] * 100).round(2)`
(data_extraction.py line 171): the unguarded division under pandas float
semantics — 0/0 gives NaN, a nonzero savings over a zero total gives a
signed infinity, and a nonzero total gives the rounded percentage. -/
def savings_percentage (total discountedTotal : ℚ) : PFloat :=
  if total = 0 then
    if total - discountedTotal = 0 then PFloat.nan
    else if 0 < total - discountedTotal then PFloat.inf
    else PFloat.neginf
  else PFloat.finite (round2 ((total - discountedTotal) / total * 100))

/-! ## Extraction pipeline (data_extraction.py)

`fetch_data` (lines 43-58) wraps the request in try/except: a
RequestException is caught, logged and turned into None.  The three
`extract_*` methods (lines 60-209) return None rows for a missing
response, otherwise the normalized rows with their derived columns.
`run_extraction` (lines 262-273) calls the three extractions in sequence
and then `create_sqlite_database` with whatever succeeded; the database
step writes one table per non-missing frame (lines 224-258). -/

def fetch_data {α : Type _} (response : Except String α) : Option α :=
  match response with
  | Except.ok a => some a
  | Except.error _ => none

structure RawProduct where
  id : Int
  price : ℚ
  discountPercentage : ℚ
  rating : ℚ
  stock : ℚ
  category : String
deriving DecidableEq

structure ProductOut where
  id : Int
  price : ℚ
  rating : ℚ
  stock : ℚ
  category : String
  revenue_potential : ℚ
  discounted_price : ℚ
deriving DecidableEq

/-- Derived product columns (data_extraction.py lines 88-89). -/
def processProduct (p : RawProduct) : ProductOut :=
  ⟨p.id, p.price, p.rating, p.stock, p.category,
    p.price * p.stock, p.price * (1 - p.discountPercentage / 100)⟩

def extract_products (resp : Option (List RawProduct)) : Option (List ProductOut) :=
  resp.map (fun ps => ps.map processProduct)

structure RawUser where
  id : Int
  age : Option Int
deriving DecidableEq

structure UserOut where
  id : Int
  age : Option Int
  age_group : String
deriving DecidableEq

/-- `df_clean['age_group'] = df_clean['age'].apply(self.categorize_age)`
(data_extraction.py line 134). -/
def processUser (u : RawUser) : UserOut := ⟨u.id, u.age, categorize_age u.age⟩

def extract_users (resp : Option (List RawUser)) : Option (List UserOut) :=
  resp.map (fun us => us.map processUser)

structure RawCartItem where
  id : Int
  title : String
  price : ℚ
  quantity : Int
  total : ℚ
  discountPercentage : Option ℚ
  discountedPrice : Option ℚ
deriving DecidableEq

structure RawCart where
  id : Int
  userId : Int
  total : ℚ
  discountedTotal : ℚ
  totalProducts : Int
  totalQuantity : Int
  products : List RawCartItem
deriving DecidableEq

structure CartOut where
  id : Int
  userId : Int
  total : ℚ
  discountedTotal : ℚ
  totalProducts : Int
  totalQuantity : Int
  total_savings : ℚ
  saving_pct : PFloat
deriving DecidableEq

/-- Derived cart columns (data_extraction.py lines 170-171). -/
def processCart (c : RawCart) : CartOut :=
  ⟨c.id, c.userId, c.total, c.discountedTotal, c.totalProducts,
    c.totalQuantity, c.total - c.discountedTotal,
    savings_percentage c.total c.discountedTotal⟩

structure CartItemRow where
  cart_id : Int
  user_id : Int
  product_id : Int
  product_title : String
  price : ℚ
  quantity : Int
  total : ℚ
  discount_percentage : ℚ
  discounted_price : ℚ
deriving DecidableEq

/-- One cart-item row (data_extraction.py lines 186-196): the row inherits
the cart id and user id of the enclosing cart; a missing raw
discountPercentage defaults to 0 via `.get('discountPercentage', 0)` and a
missing raw discountedPrice defaults to the unit price via
`.get('discountedPrice', product['price'])`. -/
def mkCartItemRow (c : RawCart) (p : RawCartItem) : CartItemRow :=
  ⟨c.id, c.userId, p.id, p.title, p.price, p.quantity, p.total,
    p.discountPercentage.getD 0, p.discountedPrice.getD p.price⟩

/-- The nested loops of lines 181-197: one output row per line item of
every cart, in order. -/
def extract_cart_items (carts : List RawCart) : List CartItemRow :=
  carts.flatMap (fun c => c.products.map (mkCartItemRow c))

/-- `extract_carts` (data_extraction.py lines 147-209); the item frame is
None when the item list is empty (`if cart_items else None`, line 207). -/
def extract_carts (resp : Option (List RawCart)) :
    Option (List CartOut) × Option (List CartItemRow) :=
  match resp with
  | none => (none, none)
  | some carts =>
    (some (carts.map processCart),
      if extract_cart_items carts = [] then none
      else some (extract_cart_items carts))

/-- The tables written by `create_sqlite_database`: one per frame that is
not None (data_extraction.py lines 233-247). -/
def create_sqlite_database {α β γ δ : Type _} (products : Option α)
    (users : Option β) (carts : Option γ) (cart_items : Option δ) :
    List String :=
  (if products.isSome then ["products"] else []) ++
    (if users.isSome then ["users"] else []) ++
    (if carts.isSome then ["carts"] else []) ++
    (if cart_items.isSome then ["cart_items"] else [])

structure RunOutcome where
  products : Option (List ProductOut)
  users : Option (List UserOut)
  carts : Option (List CartOut)
  cartItems : Option (List CartItemRow)
  tables : List String
deriving DecidableEq

/-- `run_extraction` (data_extraction.py lines 262-273): the three
extractions run unconditionally in sequence, each swallowing its own fetch
failure, and the database step receives whatever succeeded. -/
def run_extraction (respP : Except String (List RawProduct))
    (respU : Except String (List RawUser))
    (respC : Except String (List RawCart)) : RunOutcome :=
  let p := extract_products (fetch_data respP)
  let u := extract_users (fetch_data respU)
  let cc := extract_carts (fetch_data respC)
  ⟨p, u, cc.1, cc.2, create_sqlite_database p u cc.1 cc.2⟩

/-! ## The chart loop (create_visualizations.py)

`generate_all_visualizations` (lines 594-639) runs the five chart builders
inside ONE try block; the except arm logs the error and the function
returns None.  The model consumes the outcome of each chart step in order
and returns the 1-based indices of the steps that were started, paired with
the error that aborted the run, if any. -/

def runChartsFrom : ℕ → List (Except String Unit) → List ℕ × Option String
  | _, [] => ([], none)
  | n, Except.error e :: _ => ([n], some e)
  | n, Except.ok _ :: rest =>
    let r := runChartsFrom (n + 1) rest
    (n :: r.1, r.2)

def generate_all_visualizations (charts : List (Except String Unit)) :
    List ℕ × Option String :=
  runChartsFrom 1 charts

/-- A run whose first chart raises and whose other four would succeed. -/
def failingChartRun : List (Except String Unit) :=
  [Except.error "chart 1 failed", Except.ok (), Except.ok (), Except.ok (),
    Except.ok ()]

/-- A cart item with both optional raw fields missing. -/
def witnessItem : RawCartItem := ⟨1, "w", 10, 2, 20, none, none⟩

/-- A cart holding `witnessItem`. -/
def witnessCart : RawCart := ⟨9, 4, 20, 18, 1, 2, [witnessItem]⟩

/-! ## Helper lemmas about sorting and the grouped summary -/

theorem insertSorted_perm {α : Type _} (le : α → α → Bool) (x : α) :
    ∀ l : List α, (insertSorted le x l).Perm (x :: l)
  | [] => List.Perm.refl _
  | y :: ys => by
    unfold insertSorted
    by_cases h : le x y = true
    · rw [if_pos h]
    · rw [if_neg h]
      exact ((insertSorted_perm le x ys).cons y).trans (List.Perm.swap x y ys)

theorem insertionSort_perm {α : Type _} (le : α → α → Bool) :
    ∀ l : List α, (insertionSort le l).Perm l
  | [] => List.Perm.refl _
  | x :: xs =>
    (insertSorted_perm le x (insertionSort le xs)).trans
      ((insertionSort_perm le xs).cons x)

theorem mem_insertSorted {α : Type _} (le : α → α → Bool) (x z : α)
    (l : List α) : z ∈ insertSorted le x l ↔ z = x ∨ z ∈ l := by
  rw [(insertSorted_perm le x l).mem_iff, List.mem_cons]

theorem pairwise_insertSorted {α : Type _} (le : α → α → Bool)
    (htot : ∀ a b, le a b = true ∨ le b a = true)
    (htrans : ∀ a b c, le a b = true → le b c = true → le a c = true)
    (x : α) :
    ∀ l : List α, l.Pairwise (fun a b => le a b = true) →
      (insertSorted le x l).Pairwise (fun a b => le a b = true)
  | [], _ => by simp [insertSorted]
  | y :: ys, h => by
    rcases List.pairwise_cons.1 h with ⟨hy, hys⟩
    unfold insertSorted
    by_cases hxy : le x y = true
    · rw [if_pos hxy]
      refine List.pairwise_cons.2 ⟨?_, h⟩
      intro z hz
      rcases List.mem_cons.1 hz with rfl | hz2
      · exact hxy
      · exact htrans x y z hxy (hy z hz2)
    · rw [if_neg hxy]
      refine List.pairwise_cons.2 ⟨?_, pairwise_insertSorted le htot htrans x ys hys⟩
      intro z hz
      rcases (mem_insertSorted le x z ys).1 hz with hzx | hz2
      · rw [hzx]
        rcases htot x y with h1 | h1
        · exact absurd h1 hxy
        · exact h1
      · exact hy z hz2

theorem pairwise_insertionSort {α : Type _} (le : α → α → Bool)
    (htot : ∀ a b, le a b = true ∨ le b a = true)
    (htrans : ∀ a b c, le a b = true → le b c = true → le a c = true) :
    ∀ l : List α, (insertionSort le l).Pairwise (fun a b => le a b = true)
  | [] => List.Pairwise.nil
  | x :: xs =>
    pairwise_insertSorted le htot htrans x (insertionSort le xs)
      (pairwise_insertionSort le htot htrans xs)

theorem lookupQ_map_keys (keys : List String) (f : String → ℚ) (c : String) :
    lookupQ (keys.map (fun k => (k, f k))) c =
      if c ∈ keys then some (f c) else none := by
  induction keys with
  | nil => simp [lookupQ]
  | cons a t ih =>
    by_cases hac : a = c
    · subst hac
      simp [lookupQ]
    · simp [lookupQ, hac, ih, Ne.symm hac]

theorem catRevenue_cons (r : ProductRow) (rest : List ProductRow) (k : String) :
    catRevenue (r :: rest) k =
      (if r.category = k then r.price * r.stock else 0) + catRevenue rest k := by
  by_cases h : r.category = k <;>
    simp [catRevenue, List.filter_cons, h]

theorem catRevenue_eq_zero_of_not_mem (rows : List ProductRow) (k : String)
    (h : k ∉ rows.map (fun r => r.category)) : catRevenue rows k = 0 := by
  have hf : rows.filter (fun r => decide (r.category = k)) = [] := by
    rw [List.filter_eq_nil_iff]
    intro r hr
    simp only [decide_eq_true_eq]
    intro hrk
    exact h (List.mem_map.2 ⟨r, hr, hrk⟩)
  simp [catRevenue, hf]

theorem sum_map_ite_eq (l : List String) (k : String) (v : ℚ)
    (hnd : l.Nodup) (hk : k ∈ l) :
    (l.map (fun x => if k = x then v else 0)).sum = v := by
  induction l with
  | nil => cases hk
  | cons a t ih =>
    rcases List.nodup_cons.1 hnd with ⟨hna, hnt⟩
    by_cases hak : k = a
    · subst hak
      have ht : ((t.map (fun x => if k = x then v else 0))).sum = 0 := by
        apply List.sum_eq_zero
        intro x hx
        rcases List.mem_map.1 hx with ⟨y, hy, rfl⟩
        have : k ≠ y := fun h => hna (h ▸ hy)
        simp [this]
      simp [ht]
    · have hkt : k ∈ t := by
        rcases List.mem_cons.1 hk with rfl | h
        · exact absurd rfl hak
        · exact h
      simp [hak, ih hnt hkt]

/-- The partition property of the groupby: summing the per-category revenue
over the distinct categories recovers the sum of price times stock over all
rows — no row dropped, none counted twice. -/
theorem sum_catRevenue_dedup (rows : List ProductRow) :
    (((rows.map (fun r => r.category)).dedup).map
      (fun k => catRevenue rows k)).sum =
      (rows.map (fun r => r.price * r.stock)).sum := by
  induction rows with
  | nil => simp [catRevenue]
  | cons r rest ih =>
    have hmapcons :
        (r :: rest).map (fun p => p.category) =
          r.category :: rest.map (fun p => p.category) := rfl
    by_cases hmem : r.category ∈ rest.map (fun p => p.category)
    · rw [hmapcons, List.dedup_cons_of_mem hmem]
      have hsplit :
          ((rest.map (fun p => p.category)).dedup.map
            (fun k => catRevenue (r :: rest) k)).sum =
          ((rest.map (fun p => p.category)).dedup.map
            (fun k => if r.category = k then r.price * r.stock else 0)).sum +
          ((rest.map (fun p => p.category)).dedup.map
            (fun k => catRevenue rest k)).sum := by
        rw [← List.sum_map_add]
        congr 1
        apply List.map_congr_left
        intro k _
        rw [catRevenue_cons]
      rw [hsplit, ih,
        sum_map_ite_eq _ _ _ (List.nodup_dedup _) (List.mem_dedup.2 hmem)]
      simp
    · rw [hmapcons, List.dedup_cons_of_not_mem hmem]
      have hz : catRevenue rest r.category = 0 :=
        catRevenue_eq_zero_of_not_mem rest r.category hmem
      have hhead : catRevenue (r :: rest) r.category = r.price * r.stock := by
        rw [catRevenue_cons, hz, if_pos rfl, add_zero]
      have htail :
          (rest.map (fun p => p.category)).dedup.map
            (fun k => catRevenue (r :: rest) k) =
          (rest.map (fun p => p.category)).dedup.map
            (fun k => catRevenue rest k) := by
        apply List.map_congr_left
        intro k hkmem
        have hkne : r.category ≠ k := by
          intro h
          exact hmem (h ▸ List.mem_dedup.1 hkmem)
        rw [catRevenue_cons, if_neg hkne, zero_add]
      rw [List.map_cons, List.sum_cons, hhead, htail, ih]
      simp

theorem mem_categoriesOf (rows : List ProductRow) (c : String) :
    c ∈ categoriesOf rows ↔ c ∈ rows.map (fun r => r.category) := by
  rw [categoriesOf, (insertionSort_perm strLe _).mem_iff, List.mem_dedup]

theorem nodup_categoriesOf (rows : List ProductRow) :
    (categoriesOf rows).Nodup :=
  ((insertionSort_perm strLe _).nodup_iff).2 (List.nodup_dedup _)

theorem pairwise_lt_categoriesOf (rows : List ProductRow) :
    (categoriesOf rows).Pairwise (fun a b => a < b) := by
  have hle : (categoriesOf rows).Pairwise (fun a b => strLe a b = true) :=
    pairwise_insertionSort strLe
      (fun a b => by
        simp only [strLe, decide_eq_true_eq]
        exact le_total a b)
      (fun a b c hab hbc => by
        simp only [strLe, decide_eq_true_eq] at hab hbc ⊢
        exact le_trans hab hbc) _
  have hne : (categoriesOf rows).Pairwise (fun a b : String => a ≠ b) :=
    nodup_categoriesOf rows
  refine (hle.and hne).imp ?_
  intro a b hab
  rcases hab with ⟨h1, h2⟩
  simp only [strLe, decide_eq_true_eq] at h1
  exact lt_of_le_of_ne h1 h2

theorem insertSorted_lex (x : String × ℚ) :
    ∀ l : List (String × ℚ),
      l.Pairwise (fun a b => a.2 < b.2 ∨ (a.2 = b.2 ∧ a.1 < b.1)) →
      (∀ z ∈ l, x.1 < z.1) →
      (insertSorted leRev x l).Pairwise
        (fun a b => a.2 < b.2 ∨ (a.2 = b.2 ∧ a.1 < b.1))
  | [], _, _ => by simp [insertSorted]
  | y :: ys, hs, hn => by
    rcases List.pairwise_cons.1 hs with ⟨hy, hys⟩
    unfold insertSorted
    by_cases hxy : leRev x y = true
    · rw [if_pos hxy]
      have hx2y2 : x.2 ≤ y.2 := by simpa [leRev] using hxy
      refine List.pairwise_cons.2 ⟨?_, hs⟩
      intro z hz
      have hz2 : x.2 ≤ z.2 := by
        rcases List.mem_cons.1 hz with rfl | hzys
        · exact hx2y2
        · rcases hy z hzys with h | ⟨h, _⟩
          · exact hx2y2.trans (le_of_lt h)
          · exact h ▸ hx2y2
      rcases lt_or_eq_of_le hz2 with h | h
      · exact Or.inl h
      · exact Or.inr ⟨h, hn z hz⟩
    · rw [if_neg hxy]
      have hy2x2 : y.2 < x.2 := by
        have hnle : ¬ x.2 ≤ y.2 := by simpa [leRev] using hxy
        exact lt_of_not_le hnle
      refine List.pairwise_cons.2
        ⟨?_, insertSorted_lex x ys hys (fun z hz => hn z (List.mem_cons_of_mem _ hz))⟩
      intro z hz
      rcases (mem_insertSorted leRev x z ys).1 hz with hzx | hzys
      · rw [hzx]
        exact Or.inl hy2x2
      · exact hy z hzys

theorem insertionSort_rev_lex :
    ∀ l : List (String × ℚ),
      l.Pairwise (fun a b => a.1 < b.1) →
      (insertionSort leRev l).Pairwise
        (fun a b => a.2 < b.2 ∨ (a.2 = b.2 ∧ a.1 < b.1))
  | [], _ => List.Pairwise.nil
  | x :: xs, h => by
    rcases List.pairwise_cons.1 h with ⟨hx, hxs⟩
    refine insertSorted_lex x (insertionSort leRev xs)
      (insertionSort_rev_lex xs hxs) ?_
    intro z hz
    exact hx z ((insertionSort_perm leRev xs).mem_iff.1 hz)

theorem pairwise_fst_lt_revenueSummary (rows : List ProductRow) :
    (revenueSummary rows).Pairwise (fun a b => a.1 < b.1) := by
  rw [revenueSummary, List.pairwise_map]
  exact pairwise_lt_categoriesOf rows

/-- C1: the customer value classification is a strict priority cascade
(Premium, Valuable, Regular, Low-Value, first match wins) with the stated
thresholds; a user with total_spent 2000 and order_count 1 is Regular, and
a user whose carts total 900 and 900 is Valuable. -/
theorem c1_customer_value_cascade (ts : ℚ) (oc : ℕ) :
    (customer_value_segment ts oc = premiumLabel ↔ (1500 ≤ ts ∧ 3 ≤ oc)) ∧
    (customer_value_segment ts oc = valuableLabel ↔
      (¬(1500 ≤ ts ∧ 3 ≤ oc) ∧ 800 ≤ ts ∧ 2 ≤ oc)) ∧
    (customer_value_segment ts oc = regularLabel ↔
      (¬(1500 ≤ ts ∧ 3 ≤ oc) ∧ ¬(800 ≤ ts ∧ 2 ≤ oc) ∧ (400 ≤ ts ∨ 2 ≤ oc))) ∧
    (customer_value_segment ts oc = lowValueLabel ↔
      (¬(1500 ≤ ts ∧ 3 ≤ oc) ∧ ¬(800 ≤ ts ∧ 2 ≤ oc) ∧ ¬(400 ≤ ts ∨ 2 ≤ oc))) ∧
    customer_value_segment 2000 1 = regularLabel ∧
    customer_value_segment (userTotalSpent twoNineHundredCarts 7)
      (userOrderCount twoNineHundredCarts 7) = valuableLabel := by
  refine ⟨?_, ?_, ?_, ?_, by norm_num [customer_value_segment],
    by norm_num [customer_value_segment, userTotalSpent, userOrderCount,
      twoNineHundredCarts]⟩ <;>
    · unfold customer_value_segment
      split_ifs with h1 h2 h3 <;>
        simp_all [premiumLabel, valuableLabel, regularLabel, lowValueLabel]

/-- C2: both `categorize_age` functions follow the claimed inclusive
mapping (25 and 35 to Millennials, 36 and 50 to Gen X), but the
`pd.cut` binner of the executive summary dashboard does not agree with
it: its right-closed bin (0,25] classifies age 25 as Gen Z. -/
theorem c2_age_segment_divergence :
    categorize_age (some 25) = millennialsLabel ∧
    categorize_age (some 35) = millennialsLabel ∧
    categorize_age (some 36) = genXLabel ∧
    categorize_age (some 50) = genXLabel ∧
    categorize_age_viz (some 25) = millennialsLabel ∧
    pd_cut_age_segment 25 = some genZCutLabel ∧
    pd_cut_age_segment 25 ≠ some (categorize_age (some 25)) := by
  decide

/-- C5: `data_extraction.categorize_age` maps a missing age to Unknown and
the pandas mean excludes it, but the visualization-side `categorize_age`
has no missing branch and classifies a missing age as Boomers, so the
claim does not hold at every place the program classifies ages. -/
theorem c5_missing_age_divergence :
    categorize_age none = unknownLabel ∧
    avg_age [some 20, none, some 30] = some 25 ∧
    categorize_age_viz none = boomersLabel ∧
    categorize_age_viz none ≠ unknownLabel := by
  refine ⟨rfl, by norm_num [avg_age, List.filterMap_cons], rfl, by decide⟩

/-- C3: in the category summary, the revenue_potential of every present
category is the sum over that category of per-row price times stock; and
summing the per-category revenues over the distinct categories recovers the
total over all rows, so no row is dropped or counted twice. -/
theorem c3_category_revenue (rows : List ProductRow) (c : String)
    (h : c ∈ rows.map (fun r => r.category)) :
    lookupQ (revenueSummary rows) c =
      some (((rows.filter (fun r => decide (r.category = c))).map
        (fun r => r.price * r.stock)).sum) ∧
    ((categoriesOf rows).map (fun k => catRevenue rows k)).sum =
      (rows.map (fun r => r.price * r.stock)).sum := by
  constructor
  · rw [revenueSummary, lookupQ_map_keys, if_pos ((mem_categoriesOf rows c).2 h)]
    rfl
  · rw [categoriesOf,
      ((insertionSort_perm strLe
        ((rows.map (fun r => r.category)).dedup)).map
          (fun k => catRevenue rows k)).sum_eq]
    exact sum_catRevenue_dedup rows

/-- Witness for C3 at the concrete three-product scenario: category A
reports 70 and category B reports 50. -/
theorem c3_category_revenue_witness :
    (("A" : String) ∈ threeProducts.map (fun r => r.category)) ∧
    lookupQ (revenueSummary threeProducts) ("A") = some 70 ∧
    lookupQ (revenueSummary threeProducts) ("B") = some 50 := by
  have hA := (c3_category_revenue threeProducts ("A") (by simp [threeProducts])).1
  have hB := (c3_category_revenue threeProducts ("B") (by simp [threeProducts])).1
  have hBA : ¬ (("B" : String) = "A") := by decide
  have hAB : ¬ (("A" : String) = "B") := by decide
  refine ⟨by simp [threeProducts], ?_, ?_⟩
  · rw [hA]
    norm_num [threeProducts, List.filter_cons, hBA]
  · rw [hB]
    norm_num [threeProducts, List.filter_cons, hAB]

/-- C6 counterexample: two categories with equal revenue potential 70 come
out of the descending sort in name-descending order b, a — pandas reverses
a stable ascending order — so the summary violates the claimed ordering
(revenue descending with ties broken by name ascending). -/
theorem c6_tie_counterexample :
    revenueSummarySorted tieRows =
      [(("b" : String), (70 : ℚ)), (("a" : String), (70 : ℚ))] ∧
    ¬ (revenueSummarySorted tieRows).Pairwise
        (fun a b => b.2 < a.2 ∨ (b.2 = a.2 ∧ a.1 ≤ b.1)) := by
  have hab : ("a" : String) < "b" := String.lt_iff_toList_lt.2 (by decide)
  have hba : ¬ (("b" : String) = "a") := by decide
  have hab2 : ¬ (("a" : String) = "b") := by decide
  have hd : ((tieRows.map (fun r => r.category)).dedup) = ["a", "b"] := by
    decide
  have hcat : categoriesOf tieRows = ["a", "b"] := by
    rw [categoriesOf, hd]
    simp [insertionSort, insertSorted, strLe, hab.le]
  have hca : catRevenue tieRows ("a") = 70 := by
    norm_num [catRevenue, tieRows, List.filter_cons, hba]
  have hcb : catRevenue tieRows ("b") = 70 := by
    norm_num [catRevenue, tieRows, List.filter_cons, hab2]
  have hsum : revenueSummary tieRows = [(("a" : String), (70 : ℚ)), ("b", 70)] := by
    rw [revenueSummary, hcat]
    simp [hca, hcb]
  have hout : revenueSummarySorted tieRows =
      [(("b" : String), (70 : ℚ)), ("a", 70)] := by
    rw [revenueSummarySorted, hsum]
    norm_num [insertionSort, insertSorted, leRev]
  refine ⟨hout, ?_⟩
  rw [hout]
  intro hp
  have hpair := (List.pairwise_cons.1 hp).1 (("a" : String), (70 : ℚ)) (by simp)
  rcases hpair with h1 | ⟨_, h3⟩
  · exact absurd h1 (by norm_num)
  · exact absurd h3 (not_le.2 hab)

/-- C6 amended: the summary has exactly one row per distinct category and is
sorted by revenue_potential descending; tied categories appear in
name-descending order (the reverse of the ascending groupby key order), not
name-ascending as claimed. -/
theorem c6_amended_sorted_summary (rows : List ProductRow) :
    ((revenueSummarySorted rows).map Prod.fst).Nodup ∧
    (∀ c, c ∈ (revenueSummarySorted rows).map Prod.fst ↔
      c ∈ rows.map (fun r => r.category)) ∧
    (revenueSummarySorted rows).Pairwise
      (fun a b => b.2 < a.2 ∨ (b.2 = a.2 ∧ b.1 < a.1)) := by
  have hperm : (revenueSummarySorted rows).Perm (revenueSummary rows) := by
    rw [revenueSummarySorted]
    exact (List.reverse_perm _).trans (insertionSort_perm leRev _)
  have hkeysperm : ((revenueSummarySorted rows).map Prod.fst).Perm
      (categoriesOf rows) := by
    have hm := hperm.map Prod.fst
    rw [revenueSummary, List.map_map] at hm
    have hcomp : (Prod.fst ∘ fun c : String => (c, catRevenue rows c)) = id := rfl
    rw [hcomp, List.map_id] at hm
    exact hm
  refine ⟨hkeysperm.nodup_iff.2 (nodup_categoriesOf rows), ?_, ?_⟩
  · intro c
    rw [hkeysperm.mem_iff, mem_categoriesOf]
  · rw [revenueSummarySorted, List.pairwise_reverse]
    exact insertionSort_rev_lex _ (pairwise_fst_lt_revenueSummary rows)

theorem runChartsFrom_replicate (e : String) (rest : List (Except String Unit)) :
    ∀ (k n : ℕ),
      runChartsFrom n (List.replicate k (Except.ok ()) ++ Except.error e :: rest) =
        (List.range' n (k + 1), some e)
  | 0, n => by simp [runChartsFrom, List.range']
  | k + 1, n => by
    rw [List.replicate_succ, List.cons_append]
    show (n :: (runChartsFrom (n + 1)
      (List.replicate k (Except.ok ()) ++ Except.error e :: rest)).1,
        (runChartsFrom (n + 1)
          (List.replicate k (Except.ok ()) ++ Except.error e :: rest)).2) = _
    rw [runChartsFrom_replicate e rest k (n + 1)]
    rfl

/-- C4 counterexample: in a run whose first chart raises while the other
four would succeed, only chart 1 is started — chart 2 is never attempted,
contradicting the claim that later charts are still rendered. -/
theorem c4_counterexample :
    (generate_all_visualizations failingChartRun).1 = [1] ∧
    (2 : ℕ) ∉ (generate_all_visualizations failingChartRun).1 ∧
    (generate_all_visualizations failingChartRun).2.isSome = true := by
  refine ⟨rfl, ?_, rfl⟩
  rw [show (generate_all_visualizations failingChartRun).1 = [1] from rfl]
  decide

/-- C4 amended: the five chart builders run inside a single try block, so
when chart k + 1 raises after k successful charts, the failure is caught and
recorded once for the whole run (the function logs it and returns None), the
run does not crash, but the charts after the failing one are not attempted:
exactly charts 1 to k + 1 are started. -/
theorem c4_amended_single_try_block (k : ℕ) (e : String)
    (rest : List (Except String Unit)) :
    generate_all_visualizations
        (List.replicate k (Except.ok ()) ++ Except.error e :: rest) =
      (List.range' 1 (k + 1), some e) :=
  runChartsFrom_replicate e rest k 1

/-- C7: when the products fetch fails, the products extraction returns the
missing marker, the users and carts extractions still run and produce
exactly what they produce under a successful products fetch, and the
database step still runs over the collections that succeeded. -/
theorem c7_fetch_failure_isolated (e : String)
    (respU : Except String (List RawUser))
    (respC : Except String (List RawCart)) :
    (run_extraction (Except.error e) respU respC).products = none ∧
    (run_extraction (Except.error e) respU respC).users =
      extract_users (fetch_data respU) ∧
    (run_extraction (Except.error e) respU respC).carts =
      (extract_carts (fetch_data respC)).1 ∧
    (run_extraction (Except.error e) respU respC).cartItems =
      (extract_carts (fetch_data respC)).2 ∧
    (∀ ps : List RawProduct,
      (run_extraction (Except.ok ps) respU respC).users =
        (run_extraction (Except.error e) respU respC).users ∧
      (run_extraction (Except.ok ps) respU respC).carts =
        (run_extraction (Except.error e) respU respC).carts) ∧
    (run_extraction (Except.error e) respU respC).tables =
      create_sqlite_database (none : Option (List ProductOut))
        (extract_users (fetch_data respU))
        (extract_carts (fetch_data respC)).1
        (extract_carts (fetch_data respC)).2 :=
  ⟨rfl, rfl, rfl, rfl, fun _ => ⟨rfl, rfl⟩, rfl⟩

/-- C8 counterexample: the stored savings_percentage is the two-decimal
rounding of the ratio, not the exact ratio (total 3, discounted 2 stores
33.33 rather than 100/3); and at total 0 with discounted 5 the unguarded
division produces negative infinity, which is neither zero nor the missing
marker. -/
theorem c8_counterexample :
    savings_percentage 3 2 = PFloat.finite (3333 / 100) ∧
    savings_percentage 3 2 ≠ PFloat.finite ((3 - 2) / 3 * 100) ∧
    savings_percentage 0 5 = PFloat.neginf ∧
    PFloat.neginf ≠ PFloat.finite 0 ∧
    PFloat.neginf ≠ PFloat.nan := by
  have h1 : savings_percentage 3 2 = PFloat.finite (3333 / 100) := by
    have hfl : (⌊(10000 : ℚ) / 3⌋ : ℤ) = 3333 := by
      rw [Int.floor_eq_iff]
      norm_num
    norm_num [savings_percentage, round2, roundHalfEven, hfl]
  refine ⟨h1, ?_, ?_, by simp, by simp⟩
  · rw [h1]
    simp only [ne_eq, PFloat.finite.injEq]
    norm_num
  · norm_num [savings_percentage]

/-- C8 amended: for a nonzero total the stored savings_percentage is the
ratio times 100 rounded to two decimals; for a zero total the unguarded
pandas division yields NaN when the savings are zero (the missing marker)
and a signed infinity — an arbitrary numeric artifact — when they are not. -/
theorem c8_savings_percentage_amended (total discounted : ℚ) :
    (total ≠ 0 →
      savings_percentage total discounted =
        PFloat.finite (round2 ((total - discounted) / total * 100))) ∧
    (total = 0 → discounted = 0 →
      savings_percentage total discounted = PFloat.nan) ∧
    (total = 0 → discounted < 0 →
      savings_percentage total discounted = PFloat.inf) ∧
    (total = 0 → 0 < discounted →
      savings_percentage total discounted = PFloat.neginf) := by
  refine ⟨fun h => ?_, fun h h2 => ?_, fun h h2 => ?_, fun h h2 => ?_⟩
  · rw [savings_percentage, if_neg h]
  · subst h
    subst h2
    norm_num [savings_percentage]
  · subst h
    rw [savings_percentage, if_pos rfl, if_neg (by linarith), if_pos (by linarith)]
  · subst h
    rw [savings_percentage, if_pos rfl, if_neg (by linarith), if_neg (by linarith)]

/-- Witness for C8 amended at total 4, discounted 3. -/
theorem c8_savings_percentage_amended_witness :
    (4 : ℚ) ≠ 0 ∧
    savings_percentage 4 3 = PFloat.finite (round2 ((4 - 3) / 4 * 100)) :=
  ⟨by norm_num, (c8_savings_percentage_amended 4 3).1 (by norm_num)⟩

/-- C10: every raw line item of every fetched cart yields exactly one
cart_items row (none dropped, total count preserved), the row inherits the
cart id and user id of its cart, a missing raw discount percentage becomes
0 and a missing raw discounted price becomes the unit price. -/
theorem c10_cart_item_defaults (carts : List RawCart) (c : RawCart)
    (p : RawCartItem) (hc : c ∈ carts) (hp : p ∈ c.products) :
    (extract_cart_items carts).length =
      (carts.map (fun k => k.products.length)).sum ∧
    mkCartItemRow c p ∈ extract_cart_items carts ∧
    (mkCartItemRow c p).cart_id = c.id ∧
    (mkCartItemRow c p).user_id = c.userId ∧
    (p.discountPercentage = none →
      (mkCartItemRow c p).discount_percentage = 0) ∧
    (p.discountedPrice = none →
      (mkCartItemRow c p).discounted_price = p.price) := by
  refine ⟨?_, ?_, rfl, rfl, fun h => ?_, fun h => ?_⟩
  · rw [extract_cart_items, List.length_flatMap]
    congr 1
    apply List.map_congr_left
    intro a _
    show (List.map (mkCartItemRow a) a.products).length = a.products.length
    rw [List.length_map]
  · exact List.mem_flatMap.2 ⟨c, hc, List.mem_map_of_mem _ hp⟩
  · simp [mkCartItemRow, h]
  · simp [mkCartItemRow, h]

/-- Witness for C10 on a one-cart, one-item collection with both optional
raw fields absent. -/
theorem c10_cart_item_defaults_witness :
    witnessCart ∈ [witnessCart] ∧
    witnessItem ∈ witnessCart.products ∧
    mkCartItemRow witnessCart witnessItem ∈ extract_cart_items [witnessCart] ∧
    (mkCartItemRow witnessCart witnessItem).discount_percentage = 0 ∧
    (mkCartItemRow witnessCart witnessItem).discounted_price = witnessItem.price := by
  have h := c10_cart_item_defaults [witnessCart] witnessCart witnessItem
    (by simp) (by simp [witnessCart])
  exact ⟨by simp, by simp [witnessCart], h.2.1, h.2.2.2.2.1 rfl, h.2.2.2.2.2 rfl⟩

theorem abs_roundHalfEven_sub_le (x : ℚ) :
    |(roundHalfEven x : ℚ) - x| ≤ 1 / 2 := by
  have h1 : ((⌊x⌋ : ℤ) : ℚ) ≤ x := Int.floor_le x
  have h2 : x < ⌊x⌋ + 1 := Int.lt_floor_add_one x
  rw [roundHalfEven]
  split_ifs with ha hb hc
  · rw [abs_le]
    constructor <;> linarith
  · push_cast
    rw [abs_le]
    constructor <;> linarith
  · rw [abs_le]
    constructor <;> linarith
  · push_cast
    rw [abs_le]
    constructor <;> linarith

theorem abs_round1_sub_le (x : ℚ) : |round1 x - x| ≤ 1 / 20 := by
  have h := abs_roundHalfEven_sub_le (x * 10)
  have heq : round1 x - x = ((roundHalfEven (x * 10) : ℚ) - x * 10) / 10 := by
    rw [round1]
    ring
  rw [heq, abs_div, abs_of_pos (by norm_num : (0 : ℚ) < 10)]
  rw [div_le_iff₀ (by norm_num : (0 : ℚ) < 10)]
  linarith

theorem abs_sum_map_sub_le (l : List String) (f g : String → ℚ) (b : ℚ)
    (h : ∀ s ∈ l, |f s - g s| ≤ b) :
    |(l.map f).sum - (l.map g).sum| ≤ (l.length : ℚ) * b := by
  induction l with
  | nil => simp
  | cons a t ih =>
    have hat := h a (List.mem_cons_self a t)
    have ht := ih (fun s hs => h s (List.mem_cons_of_mem a hs))
    simp only [List.map_cons, List.sum_cons, List.length_cons]
    have hsplit : f a + (t.map f).sum - (g a + (t.map g).sum)
        = (f a - g a) + ((t.map f).sum - (t.map g).sum) := by ring
    rw [hsplit]
    calc |(f a - g a) + ((t.map f).sum - (t.map g).sum)|
        ≤ |f a - g a| + |(t.map f).sum - (t.map g).sum| := abs_add _ _
      _ ≤ b + (t.length : ℚ) * b := add_le_add hat ht
      _ = ((t.length + 1 : ℕ) : ℚ) * b := by push_cast; ring

theorem sum_map_natCast (l : List String) (f : String → ℕ) :
    (l.map (fun s => (f s : ℚ))).sum = ((l.map f).sum : ℚ) := by
  induction l with
  | nil => simp
  | cons a t ih => simp [ih]

theorem segTotal_eq_length (ages : List (Option Int)) :
    segTotal ages = (ages.length : ℚ) := by
  rw [segTotal, segKeys,
    ((insertionSort_perm strLe ((ages.map categorize_age_viz).dedup)).map
      (fun s => (segCount ages s : ℚ))).sum_eq]
  rw [show (fun s => (segCount ages s : ℚ))
      = (fun s => (((ages.map categorize_age_viz).count s : ℕ) : ℚ)) from rfl]
  rw [sum_map_natCast, List.sum_map_count_dedup_eq_length]
  rw [List.length_map]

theorem segKeys_length_le (ages : List (Option Int)) :
    (segKeys ages).length ≤ 4 := by
  rw [segKeys, (insertionSort_perm strLe _).length_eq]
  have hsub : ∀ x ∈ (ages.map categorize_age_viz).dedup,
      x ∈ [genZLabel, millennialsLabel, genXLabel, boomersLabel] := by
    intro x hx
    rcases List.mem_map.1 (List.mem_dedup.1 hx) with ⟨a, _, rfl⟩
    rcases a with _ | a
    · simp [categorize_age_viz]
    · rw [show categorize_age_viz (some a)
          = (if a < 25 then genZLabel
            else if 25 ≤ a ∧ a ≤ 35 then millennialsLabel
            else if 36 ≤ a ∧ a ≤ 50 then genXLabel
            else boomersLabel) from rfl]
      split_ifs <;> simp
  have hnd := List.nodup_dedup (ages.map categorize_age_viz)
  calc ((ages.map categorize_age_viz).dedup).length
      = ((ages.map categorize_age_viz).dedup).toFinset.card :=
        (List.toFinset_card_of_nodup hnd).symm
    _ ≤ ([genZLabel, millennialsLabel, genXLabel,
          boomersLabel] : List String).toFinset.card :=
        Finset.card_le_card
          (fun x hx => List.mem_toFinset.2 (hsub x (List.mem_toFinset.1 hx)))
    _ ≤ 4 := List.toFinset_card_le _

theorem sum_exact_percentage (ages : List (Option Int)) (h : ages ≠ []) :
    ((segKeys ages).map
      (fun s => (segCount ages s : ℚ) / segTotal ages * 100)).sum = 100 := by
  have htot : segTotal ages = (ages.length : ℚ) := segTotal_eq_length ages
  have hpos : (0 : ℚ) < (ages.length : ℚ) := by
    have hl : 0 < ages.length := List.length_pos.2 h
    exact_mod_cast hl
  have hne : segTotal ages ≠ 0 := by
    rw [htot]
    exact ne_of_gt hpos
  have hfun : (fun s => (segCount ages s : ℚ) / segTotal ages * 100)
      = (fun s => (segCount ages s : ℚ) * (100 / segTotal ages)) := by
    funext s
    rw [div_mul_eq_mul_div, mul_div_assoc]
  rw [hfun, List.sum_map_mul_right,
    show ((segKeys ages).map (fun s => (segCount ages s : ℚ))).sum
      = segTotal ages from rfl]
  field_simp

/-- C9 counterexample: for sixteen users with segment counts 13, 1, 1, 1
every exact percentage is a quarter percent (81.25 and three times 6.25)
and numpy half-to-even rounding sends each one down, so the rounded
percentages sum to 99.8 — off from 100 by 0.2, violating the claimed 0.1
tolerance. -/
theorem c9_counterexample :
    percentageSum sixteenAges = 499 / 5 ∧
    ¬ |percentageSum sixteenAges - 100| ≤ 1 / 10 := by
  have hdedup : (sixteenAges.map categorize_age_viz).dedup
      = [genZLabel, millennialsLabel, genXLabel, boomersLabel] := by decide
  have htot : segTotal sixteenAges = 16 := by
    rw [segTotal_eq_length]
    norm_num [sixteenAges]
  have hcz : segCount sixteenAges genZLabel = 1 := by decide
  have hcm : segCount sixteenAges millennialsLabel = 1 := by decide
  have hcx : segCount sixteenAges genXLabel = 1 := by decide
  have hcb : segCount sixteenAges boomersLabel = 13 := by decide
  have hfl1 : (⌊(125 : ℚ) / 2⌋ : ℤ) = 62 := by
    rw [Int.floor_eq_iff]
    norm_num
  have hr1 : round1 (25 / 4) = 31 / 5 := by
    rw [round1, show (25 : ℚ) / 4 * 10 = 125 / 2 by norm_num, roundHalfEven, hfl1]
    norm_num
  have hfl13 : (⌊(1625 : ℚ) / 2⌋ : ℤ) = 812 := by
    rw [Int.floor_eq_iff]
    norm_num
  have hr13 : round1 (325 / 4) = 406 / 5 := by
    rw [round1, show (325 : ℚ) / 4 * 10 = 1625 / 2 by norm_num, roundHalfEven, hfl13]
    norm_num
  have h1 : segPercentage sixteenAges genZLabel = 31 / 5 := by
    rw [segPercentage, hcz, htot,
      show ((1 : ℕ) : ℚ) / 16 * 100 = 25 / 4 by norm_num, hr1]
  have hm : segPercentage sixteenAges millennialsLabel = 31 / 5 := by
    rw [segPercentage, hcm, htot,
      show ((1 : ℕ) : ℚ) / 16 * 100 = 25 / 4 by norm_num, hr1]
  have hx : segPercentage sixteenAges genXLabel = 31 / 5 := by
    rw [segPercentage, hcx, htot,
      show ((1 : ℕ) : ℚ) / 16 * 100 = 25 / 4 by norm_num, hr1]
  have hb : segPercentage sixteenAges boomersLabel = 406 / 5 := by
    rw [segPercentage, hcb, htot,
      show ((13 : ℕ) : ℚ) / 16 * 100 = 325 / 4 by norm_num, hr13]
  have hsum : percentageSum sixteenAges = 499 / 5 := by
    rw [percentageSum, segKeys,
      ((insertionSort_perm strLe _).map (segPercentage sixteenAges)).sum_eq,
      hdedup]
    simp only [List.map_cons, List.map_nil, List.sum_cons, List.sum_nil]
    rw [h1, hm, hx, hb]
    norm_num
  refine ⟨hsum, ?_⟩
  rw [hsum, show (499 : ℚ) / 5 - 100 = -(1 / 5) by norm_num, abs_neg,
    abs_of_pos (by norm_num : (0 : ℚ) < 1 / 5)]
  norm_num

/-- C9 amended: over a non-empty user set the rounded per-segment
percentages sum to 100 within 0.2 — each of the at most four segments
contributes at most 0.05 of rounding error — but not within the claimed
0.1, which the sixteen-user counterexample violates. -/
theorem c9_amended_percentage_sum (ages : List (Option Int)) (h : ages ≠ []) :
    |percentageSum ages - 100| ≤ 1 / 5 := by
  have hexact := sum_exact_percentage ages h
  have hbound := abs_sum_map_sub_le (segKeys ages)
    (segPercentage ages)
    (fun s => (segCount ages s : ℚ) / segTotal ages * 100)
    (1 / 20)
    (fun s _ => abs_round1_sub_le ((segCount ages s : ℚ) / segTotal ages * 100))
  have hlen : ((segKeys ages).length : ℚ) ≤ 4 := by
    exact_mod_cast segKeys_length_le ages
  calc |percentageSum ages - 100|
      = |((segKeys ages).map (segPercentage ages)).sum -
          ((segKeys ages).map
            (fun s => (segCount ages s : ℚ) / segTotal ages * 100)).sum| := by
        rw [percentageSum, hexact]
    _ ≤ ((segKeys ages).length : ℚ) * (1 / 20) := hbound
    _ ≤ 4 * (1 / 20) := by
        apply mul_le_mul_of_nonneg_right hlen
        norm_num
    _ = 1 / 5 := by norm_num

/-- Witness for C9 amended on a singleton user list. -/
theorem c9_amended_percentage_sum_witness :
    ([some 30] : List (Option Int)) ≠ [] ∧
    |percentageSum [some 30] - 100| ≤ 1 / 5 :=
  ⟨by simp, c9_amended_percentage_sum [some 30] (by simp)⟩

end SalesAnalytics
